import Mathlib

/-!
Verification of the MDB bus-master core (`src/mdb/master.py`) against its
specification. The Python class `Master` is shallowly embedded: each coroutine
becomes a pure function from the object's mutable state to a result
(return value or raised exception), the state afterwards, and the ordered
list of observable events (channel invocations, sleeps, peripheral
dispatches). The cooperative single-threaded scheduling of asyncio lets a
single coroutine run without interleaving between awaits of external
collaborators, so a lone call is faithfully modelled by sequential execution;
the lock-serialization property is modelled separately by a small-step
interleaving semantics of two lock-guarded exchanges.
-/

namespace MDB

/-- Python exception values the embedded code can raise. `runtimeError` is a
`RuntimeError` with its message; `assertionError` a failed `assert`;
`channelError` an exception raised by the USB channel adapter; `periphError`
one raised inside a peripheral driver; `attributeError` access to a
never-assigned attribute. -/
inductive PyErr where
  | runtimeError (msg : String)
  | channelError (msg : String)
  | periphError (msg : String)
  | assertionError
  | attributeError
deriving DecidableEq

/-- The `RuntimeError` raised by `Master.initialize` (master.py line 33) when
the board's answer to the mastership command is not `m,ACK`; the spec's error
taxonomy names it MastershipError. -/
def MastershipError : PyErr :=
  .runtimeError "Unable to start master mode on MDB board."

/-- Modelled from the spec: `to_ascii` is defined in `usb_handler.py`, which
is not among the given sources; the spec assigns byte-level text encoding to
the external channel adapter, so encoding is modelled as the identity on
text. -/
def to_ascii (s : String) : String := s

/-- The external channel adapter (`USBHandler` in the source): fire-and-forget
transmit and transmit-then-await-response primitives, each of which may fail
(I/O error, timeout, response-head mismatch). Modelled as deterministic
response functions. -/
structure USBHandler where
  send : String → Except PyErr Unit
  sendread : String → String → Except PyErr String

/-- An external peripheral driver (`BillValidator` / `CoinAcceptor` in the
source), reduced to its lifecycle capability set as the spec prescribes.
`initializeP` models the peripheral's `initialize(master, skip)` coroutine;
its outcome may depend on the skip flag, and the back-reference to the master
is not needed by any claim. -/
structure Periph where
  initializeP : Bool → Except PyErr Unit
  enable : Except PyErr String
  disable : Except PyErr String
  status : Except PyErr String
  run : Except PyErr Unit

/-- Which of the two registered peripherals. Registration order is bill
validator first, coin acceptor second: the order of the `asyncio.gather`
arguments throughout master.py. -/
inductive PeriphId where
  | billValidator
  | coinAcceptor
deriving DecidableEq

/-- Observable actions of a run of the master, in order. `sendE m` is an
invocation of `usb_handler.send` with text `m`; `sendreadE m p` an invocation
of `usb_handler.sendread` with text `m` and expected response head `p`;
`sleepE q` an `asyncio.sleep` of `q` seconds; `periphInitE i sk` dispatch of
peripheral `i`'s initialize with `skipOwnSetupDelay = sk`; `periphOpE i op`
dispatch of peripheral `i`'s lifecycle operation named `op`. -/
inductive Event where
  | sendE (msg : String)
  | sendreadE (msg : String) (pre : String)
  | sleepE (secs : ℚ)
  | periphInitE (p : PeriphId) (skipOwnSetupDelay : Bool)
  | periphOpE (p : PeriphId) (op : String)
deriving DecidableEq

/-- The mutable attributes of a `Master` object (master.py lines 14-18 and
26-28). `initialized` is the session-established flag; the other three
attributes start unassigned (`none`) and are assigned inside `initialize`.
The `asyncio.Lock` and the logger carry no claim-relevant state. -/
structure MasterState where
  initialized : Bool
  usb_handler : Option USBHandler
  bill_validator : Option Periph
  coin_acceptor : Option Periph

/-- `Master.__init__` (master.py lines 14-18): fresh lock, `initialized =
False`, no other attribute assigned yet. -/
def Master.new : MasterState := ⟨false, none, none, none⟩

/-- Outcome of running one coroutine of the master: the Python return value or
raised exception, the state of the `Master` object afterwards (an exception
does not roll attribute assignments back), and the ordered event list. -/
structure Out (α : Type) where
  res : Except PyErr α
  st : MasterState
  tr : List Event

/-- `Master.send` (master.py lines 45-48): assert the session is established,
then under the lock invoke `usb_handler.send(to_ascii(message))`. The event
records the invocation; the channel's failure, if any, is the result. -/
def Master.send (s : MasterState) (message : String) : Out Unit :=
  if s.initialized then
    match s.usb_handler with
    | some h => ⟨h.send (to_ascii message), s, [.sendE (to_ascii message)]⟩
    | none => ⟨.error .attributeError, s, []⟩
  else ⟨.error .assertionError, s, []⟩

/-- `Master.sendread` (master.py lines 50-53): assert the session is
established, then under the lock invoke
`usb_handler.sendread(to_ascii(message), pre)` and return its response. -/
def Master.sendread (s : MasterState) (message : String) (pre : String) :
    Out String :=
  if s.initialized then
    match s.usb_handler with
    | some h =>
        ⟨h.sendread (to_ascii message) pre, s,
          [.sendreadE (to_ascii message) pre]⟩
    | none => ⟨.error .attributeError, s, []⟩
  else ⟨.error .assertionError, s, []⟩

/-- The `asyncio.gather` of the two peripheral initializations (master.py
lines 42-43), called without `return_exceptions`: both coroutines run; the
bill validator's exception, if any, is the one the gather raises, else the
coin acceptor's, else the gather returns normally. -/
def gatherInit (bv ca : Periph) (sk : Bool) : Except PyErr Unit :=
  match bv.initializeP sk, ca.initializeP sk with
  | .error e, _ => .error e
  | .ok _, .error e => .error e
  | .ok _, .ok _ => .ok ()

/-- `Master.initialize` (master.py lines 20-43) run to completion on state
`s`. `SETUP_TIME_SECONDS` is the settle constant imported from
`mdb.peripherals` (a file not among the given sources), kept as a parameter.
The `asyncio.gather` of the two peripheral initializations is modelled as
both running to completion in registration order, the earliest exception, if
any, propagating once both are done. -/
def Master.initializeM (s : MasterState) (usb_handler : USBHandler)
    (bill_validator : Periph) (coin_acceptor : Periph)
    (bus_reset : Bool) (SETUP_TIME_SECONDS : ℚ) : Out Unit :=
  -- lines 26-28: store the three attributes
  let s1 : MasterState :=
    { s with usb_handler := some usb_handler,
             bill_validator := some bill_validator,
             coin_acceptor := some coin_acceptor }
  -- lines 30-32: status = await self.usb_handler.sendread(to_ascii('M,1\n'), 'm')
  let ev0 : Event := .sendreadE (to_ascii "M,1\n") "m"
  match usb_handler.sendread (to_ascii "M,1\n") "m" with
  | .error e => ⟨.error e, s1, [ev0]⟩
  | .ok status =>
    -- lines 33-34: if status != 'm,ACK': raise RuntimeError(...)
    if status ≠ "m,ACK" then ⟨.error MastershipError, s1, [ev0]⟩
    else
      -- line 35: self.initialized = True
      let s2 : MasterState := { s1 with initialized := true }
      -- lines 36-40: if bus_reset: await self.send('R,RESET\n');
      --              await asyncio.sleep(SETUP_TIME_SECONDS + 0.1)
      let afterReset : Out Unit :=
        if bus_reset then
          match Master.send s2 "R,RESET\n" with
          | ⟨.ok _, s3, t3⟩ =>
              ⟨.ok (), s3, t3 ++ [.sleepE (SETUP_TIME_SECONDS + 1 / 10)]⟩
          | ⟨.error e, s3, t3⟩ => ⟨.error e, s3, t3⟩
        else ⟨.ok (), s2, []⟩
      match afterReset with
      | ⟨.error e, s3, t3⟩ => ⟨.error e, s3, ev0 :: t3⟩
      | ⟨.ok _, s3, t3⟩ =>
        -- lines 42-43: gather of the two peripheral initializations
        ⟨gatherInit bill_validator coin_acceptor (!bus_reset), s3,
          ev0 :: (t3 ++ [.periphInitE .billValidator (!bus_reset),
                         .periphInitE .coinAcceptor (!bus_reset)])⟩

/-- `Master.enable` (master.py lines 55-60): assert established, then gather
both peripherals' `enable` with `return_exceptions=True`: one outcome per
registered peripheral, in registration order, each a value or a captured
exception; the gather itself returns normally. -/
def Master.enable (s : MasterState) : Out (List (Except PyErr String)) :=
  if s.initialized then
    match s.bill_validator, s.coin_acceptor with
    | some bv, some ca =>
        ⟨.ok [bv.enable, ca.enable], s,
          [.periphOpE .billValidator "enable",
           .periphOpE .coinAcceptor "enable"]⟩
    | _, _ => ⟨.error .attributeError, s, []⟩
  else ⟨.error .assertionError, s, []⟩

/-- `Master.disable` (master.py lines 62-67): like `enable`, gathering both
peripherals' `disable` with `return_exceptions=True`. -/
def Master.disable (s : MasterState) : Out (List (Except PyErr String)) :=
  if s.initialized then
    match s.bill_validator, s.coin_acceptor with
    | some bv, some ca =>
        ⟨.ok [bv.disable, ca.disable], s,
          [.periphOpE .billValidator "disable",
           .periphOpE .coinAcceptor "disable"]⟩
    | _, _ => ⟨.error .attributeError, s, []⟩
  else ⟨.error .assertionError, s, []⟩

/-- `Master.status` (master.py lines 69-76): like `enable`, gathering both
peripherals' `status` with `return_exceptions=True`. -/
def Master.status (s : MasterState) : Out (List (Except PyErr String)) :=
  if s.initialized then
    match s.bill_validator, s.coin_acceptor with
    | some bv, some ca =>
        ⟨.ok [bv.status, ca.status], s,
          [.periphOpE .billValidator "status",
           .periphOpE .coinAcceptor "status"]⟩
    | _, _ => ⟨.error .attributeError, s, []⟩
  else ⟨.error .assertionError, s, []⟩

/-- `Master.run` (master.py lines 78-82): assert established, then gather both
peripherals' `run` WITHOUT `return_exceptions`: both are dispatched, and if
either raises, the gather raises (the earliest failure) instead of returning
a per-peripheral outcome list. -/
def Master.run (s : MasterState) : Out Unit :=
  if s.initialized then
    match s.bill_validator, s.coin_acceptor with
    | some bv, some ca =>
        let tr : List Event :=
          [.periphOpE .billValidator "run", .periphOpE .coinAcceptor "run"]
        match bv.run, ca.run with
        | .error e, _ => ⟨.error e, s, tr⟩
        | .ok _, .error e => ⟨.error e, s, tr⟩
        | .ok _, .ok _ => ⟨.ok (), s, tr⟩
    | _, _ => ⟨.error .attributeError, s, []⟩
  else ⟨.error .assertionError, s, []⟩


/-- The transition relation generated by the master's public operations: one
method call, with any arguments, applied to a state. -/
inductive MStep : MasterState → MasterState → Prop
  | initializeS (s : MasterState) (h : USBHandler) (bv ca : Periph)
      (br : Bool) (stc : ℚ) : MStep s (Master.initializeM s h bv ca br stc).st
  | sendS (s : MasterState) (m : String) : MStep s (Master.send s m).st
  | sendreadS (s : MasterState) (m p : String) :
      MStep s (Master.sendread s m p).st
  | enableS (s : MasterState) : MStep s (Master.enable s).st
  | disableS (s : MasterState) : MStep s (Master.disable s).st
  | statusS (s : MasterState) : MStep s (Master.status s).st
  | runS (s : MasterState) : MStep s (Master.run s).st

/-- A channel that acknowledges mastership and accepts every transmit. -/
def ackChan : USBHandler :=
  ⟨fun _ => .ok (), fun _ _ => .ok "m,ACK"⟩

/-- A channel that answers `x,NAK` to every exchange and accepts transmits. -/
def nakChan : USBHandler :=
  ⟨fun _ => .ok (), fun _ _ => .ok "x,NAK"⟩

/-- A channel that acknowledges mastership but times out on every
fire-and-forget transmit. -/
def ackThenFailChan : USBHandler :=
  ⟨fun _ => .error (.channelError "timeout"), fun _ _ => .ok "m,ACK"⟩

/-- A peripheral whose every operation succeeds. -/
def okPeriph : Periph :=
  ⟨fun _ => .ok (), .ok "enabled", .ok "disabled", .ok "status ok", .ok ()⟩

/-- A peripheral whose every operation raises. -/
def failPeriph : Periph :=
  ⟨fun _ => .error (.periphError "device down"),
   .error (.periphError "device down"), .error (.periphError "device down"),
   .error (.periphError "device down"), .error (.periphError "device down")⟩

/-- An established session holding a failing bill validator and a healthy
coin acceptor. -/
def mixedState : MasterState :=
  ⟨true, some ackChan, some failPeriph, some okPeriph⟩

/-! Lock-serialization model. Two concurrently issued lock-guarded exchanges
(the body of `Master.sendread`, master.py lines 50-53: the whole
`usb_handler.sendread` await sits inside `async with self.lock`) are modelled
by a small-step interleaving semantics: each task acquires the lock, puts its
request on the wire, takes its response off the wire, and releases; the
scheduler interleaves the two tasks arbitrarily, subject only to the
`asyncio.Lock` discipline that acquisition suspends while the lock is held. -/

/-- A wire-level action of task `i`: its transmit or its receive. -/
inductive WEv where
  | tx (i : Bool)
  | rx (i : Bool)
deriving DecidableEq

/-- The task performing a wire action. -/
def WEv.task : WEv → Bool
  | .tx i => i
  | .rx i => i

/-- Global state of two concurrent lock-guarded exchanges: each task's program
counter (0 = before acquiring, 1 = holding the lock before transmitting, 2 =
transmitted and awaiting the response, 3 = response received, lock not yet
released, 4 = done), the lock's holder, and the wire trace so far. -/
structure LState where
  pc : Bool → ℕ
  holder : Option Bool
  tr : List WEv

/-- Both exchanges issued, neither begun, lock free, nothing on the wire. -/
def LState.start : LState := ⟨fun _ => 0, none, []⟩

/-- One scheduler step: any enabled action of either task fires. -/
inductive LStep : LState → LState → Prop
  | acq (s : LState) (i : Bool) : s.pc i = 0 → s.holder = none →
      LStep s ⟨Function.update s.pc i 1, some i, s.tr⟩
  | txS (s : LState) (i : Bool) : s.pc i = 1 →
      LStep s ⟨Function.update s.pc i 2, s.holder, s.tr ++ [.tx i]⟩
  | rxS (s : LState) (i : Bool) : s.pc i = 2 →
      LStep s ⟨Function.update s.pc i 3, s.holder, s.tr ++ [.rx i]⟩
  | rel (s : LState) (i : Bool) : s.pc i = 3 →
      LStep s ⟨Function.update s.pc i 4, none, s.tr⟩

/-- No byte interleaving: between a task's transmit and its matching receive,
no wire action of the other task occurs. -/
def noInterleave (t : List WEv) : Prop :=
  ∀ (i : Bool) (p q r : ℕ), p < q → q < r →
    t.get? p = some (.tx i) → t.get? r = some (.rx i) →
    t.get? q = some (.tx (!i)) ∨ t.get? q = some (.rx (!i)) → False

/-- A program counter in 1..3 means the task is inside the locked region. -/
def lockedPc (n : ℕ) : Prop := n = 1 ∨ n = 2 ∨ n = 3

/-- The possible wire traces as a function of the two program counters; every
shape keeps each exchange's transmit-receive pair contiguous. -/
def traceShape (s : LState) : Prop :=
  (s.tr = [] ∧ s.pc true ≤ 1 ∧ s.pc false ≤ 1) ∨
  (∃ i, s.tr = [.tx i] ∧ s.pc i = 2 ∧ s.pc (!i) ≤ 1) ∨
  (∃ i, s.tr = [.tx i, .rx i] ∧ 3 ≤ s.pc i ∧ s.pc (!i) ≤ 1) ∨
  (∃ i, s.tr = [.tx i, .rx i, .tx (!i)] ∧ 3 ≤ s.pc i ∧ s.pc (!i) = 2) ∨
  (∃ i, s.tr = [.tx i, .rx i, .tx (!i), .rx (!i)] ∧
    3 ≤ s.pc i ∧ 3 ≤ s.pc (!i))

/-- The inductive invariant: mutual exclusion (a task's counter is in the
locked range exactly when it holds the lock) together with the trace shape. -/
def LInv (s : LState) : Prop :=
  (∀ i, lockedPc (s.pc i) ↔ s.holder = some i) ∧ traceShape s

theorem LInv_start : LInv LState.start := by
  constructor
  · intro i
    simp [LState.start, lockedPc]
  · left
    simp [LState.start]


/-! Characterization of `Master.initializeM` by cases on the channel's
behaviour, and frame lemmas for the other operations. -/

theorem initializeM_err (s : MasterState) (h : USBHandler) (bv ca : Periph)
    (br : Bool) (stc : ℚ) (e : PyErr)
    (hr : h.sendread (to_ascii "M,1\n") "m" = .error e) :
    Master.initializeM s h bv ca br stc =
      ⟨.error e, ⟨s.initialized, some h, some bv, some ca⟩,
        [.sendreadE (to_ascii "M,1\n") "m"]⟩ := by
  simp [Master.initializeM, hr]

theorem initializeM_nak (s : MasterState) (h : USBHandler) (bv ca : Periph)
    (br : Bool) (stc : ℚ) (resp : String)
    (hr : h.sendread (to_ascii "M,1\n") "m" = .ok resp)
    (hne : resp ≠ "m,ACK") :
    Master.initializeM s h bv ca br stc =
      ⟨.error MastershipError, ⟨s.initialized, some h, some bv, some ca⟩,
        [.sendreadE (to_ascii "M,1\n") "m"]⟩ := by
  simp [Master.initializeM, hr, hne]

theorem initializeM_ack_noreset (s : MasterState) (h : USBHandler)
    (bv ca : Periph) (stc : ℚ)
    (hr : h.sendread (to_ascii "M,1\n") "m" = .ok "m,ACK") :
    Master.initializeM s h bv ca false stc =
      ⟨gatherInit bv ca true, ⟨true, some h, some bv, some ca⟩,
        [.sendreadE (to_ascii "M,1\n") "m",
         .periphInitE .billValidator true,
         .periphInitE .coinAcceptor true]⟩ := by
  simp [Master.initializeM, hr]

theorem initializeM_ack_reset_ok (s : MasterState) (h : USBHandler)
    (bv ca : Periph) (stc : ℚ)
    (hr : h.sendread (to_ascii "M,1\n") "m" = .ok "m,ACK")
    (hsend : h.send (to_ascii "R,RESET\n") = .ok ()) :
    Master.initializeM s h bv ca true stc =
      ⟨gatherInit bv ca false, ⟨true, some h, some bv, some ca⟩,
        [.sendreadE (to_ascii "M,1\n") "m",
         .sendE (to_ascii "R,RESET\n"),
         .sleepE (stc + 1 / 10),
         .periphInitE .billValidator false,
         .periphInitE .coinAcceptor false]⟩ := by
  simp [Master.initializeM, Master.send, hr, hsend]

theorem initializeM_ack_reset_err (s : MasterState) (h : USBHandler)
    (bv ca : Periph) (stc : ℚ) (e : PyErr)
    (hr : h.sendread (to_ascii "M,1\n") "m" = .ok "m,ACK")
    (hsend : h.send (to_ascii "R,RESET\n") = .error e) :
    Master.initializeM s h bv ca true stc =
      ⟨.error e, ⟨true, some h, some bv, some ca⟩,
        [.sendreadE (to_ascii "M,1\n") "m",
         .sendE (to_ascii "R,RESET\n")]⟩ := by
  simp [Master.initializeM, Master.send, hr, hsend]

theorem send_st (s : MasterState) (m : String) : (Master.send s m).st = s := by
  cases hu : s.usb_handler <;> cases hi : s.initialized <;>
    simp [Master.send, hi, hu]

theorem sendread_st (s : MasterState) (m p : String) :
    (Master.sendread s m p).st = s := by
  cases hu : s.usb_handler <;> cases hi : s.initialized <;>
    simp [Master.sendread, hi, hu]

theorem enable_st (s : MasterState) : (Master.enable s).st = s := by
  cases hb : s.bill_validator <;> cases hc : s.coin_acceptor <;>
    cases hi : s.initialized <;> simp [Master.enable, hi, hb, hc]

theorem disable_st (s : MasterState) : (Master.disable s).st = s := by
  cases hb : s.bill_validator <;> cases hc : s.coin_acceptor <;>
    cases hi : s.initialized <;> simp [Master.disable, hi, hb, hc]

theorem status_st (s : MasterState) : (Master.status s).st = s := by
  cases hb : s.bill_validator <;> cases hc : s.coin_acceptor <;>
    cases hi : s.initialized <;> simp [Master.status, hi, hb, hc]

theorem run_st (s : MasterState) : (Master.run s).st = s := by
  unfold Master.run
  cases hi : s.initialized
  · simp
  · cases hb : s.bill_validator <;> cases hc : s.coin_acceptor
    · simp
    · simp
    · simp
    · rename_i bv ca
      cases hbv : bv.run <;> cases hca : ca.run <;> simp [hbv, hca]

theorem initializeM_st_initialized (s : MasterState) (h : USBHandler)
    (bv ca : Periph) (br : Bool) (stc : ℚ) :
    ((Master.initializeM s h bv ca br stc).st.initialized = true ↔
      (s.initialized = true ∨
        h.sendread (to_ascii "M,1\n") "m" = .ok "m,ACK")) := by
  cases hr : h.sendread (to_ascii "M,1\n") "m" with
  | error e =>
    rw [initializeM_err s h bv ca br stc e hr]
    simp [hr]
  | ok resp =>
    by_cases hne : resp = "m,ACK"
    · subst hne
      cases br
      · rw [initializeM_ack_noreset s h bv ca stc hr]
        simp
      · cases hsend : h.send (to_ascii "R,RESET\n") with
        | ok u =>
          cases u
          rw [initializeM_ack_reset_ok s h bv ca stc hr hsend]
          simp
        | error e =>
          rw [initializeM_ack_reset_err s h bv ca stc e hr hsend]
          simp
    · rw [initializeM_nak s h bv ca br stc resp hr hne]
      simp [hr, hne]

theorem update_other (f : Bool → ℕ) (i : Bool) (v : ℕ) :
    Function.update f i v (!i) = f (!i) :=
  Function.update_noteq (by cases i <;> simp) v f

theorem update_other2 (f : Bool → ℕ) (i : Bool) (v : ℕ) :
    Function.update f (!i) v i = f i :=
  Function.update_noteq (by cases i <;> simp) v f

theorem bool_eq_or (i j : Bool) : i = j ∨ i = !j := by
  cases i <;> cases j <;> simp

theorem LInv_step {s s2 : LState} (h : LInv s) (hs : LStep s s2) : LInv s2 := by
  obtain ⟨hmx, hsh⟩ := h
  cases hs with
  | acq i hpc hfree =>
    have hnl : ∀ j, ¬ lockedPc (s.pc j) := by
      intro j hj
      have h2 := (hmx j).mp hj
      rw [hfree] at h2
      exact Option.noConfusion h2
    refine ⟨?_, ?_⟩
    · intro j
      dsimp only
      by_cases hij : j = i
      · subst hij
        simp [Function.update_same, lockedPc]
      · rw [Function.update_noteq hij]
        simp only [Option.some_inj]
        exact ⟨fun hl => absurd hl (hnl j), fun hji => absurd hji.symm hij⟩
    · rcases hsh with ⟨h1, h2, h3⟩ | ⟨j, h1, h2, h3⟩ | ⟨j, h1, h2, h3⟩ |
        ⟨j, h1, h2, h3⟩ | ⟨j, h1, h2, h3⟩
      · left
        refine ⟨h1, ?_, ?_⟩ <;> dsimp only
        · by_cases hb : (true : Bool) = i
          · rw [← hb, Function.update_same]
          · rw [Function.update_noteq hb]
            exact h2
        · by_cases hb : (false : Bool) = i
          · rw [← hb, Function.update_same]
          · rw [Function.update_noteq hb]
            exact h3
      · exact absurd (Or.inr (Or.inl h2)) (hnl j)
      · rcases bool_eq_or i j with hij | hij
        · subst hij
          omega
        · right; right; left
          subst hij
          refine ⟨j, h1, ?_, ?_⟩ <;> dsimp only
          · rw [update_other2]
            exact h2
          · simp [Function.update_same]
      · exact absurd (Or.inr (Or.inl h3)) (hnl (!j))
      · rcases bool_eq_or i j with hij | hij <;> subst hij <;> omega
  | txS i hpc =>
    have hold : s.holder = some i := (hmx i).mp (Or.inl hpc)
    refine ⟨?_, ?_⟩
    · intro j
      dsimp only
      by_cases hij : j = i
      · subst hij
        simp [Function.update_same, lockedPc, hold]
      · rw [Function.update_noteq hij]
        exact hmx j
    · rcases hsh with ⟨h1, h2, h3⟩ | ⟨j, h1, h2, h3⟩ | ⟨j, h1, h2, h3⟩ |
        ⟨j, h1, h2, h3⟩ | ⟨j, h1, h2, h3⟩
      · right; left
        refine ⟨i, ?_, ?_, ?_⟩ <;> dsimp only
        · rw [h1]
          simp
        · rw [Function.update_same]
        · rw [update_other]
          cases i
          · simpa using h2
          · simpa using h3
      · -- the other task mid-exchange would also hold the lock
        have hj : s.holder = some j := (hmx j).mp (Or.inr (Or.inl h2))
        rw [hold] at hj
        have hij : i = j := Option.some_inj.mp hj
        subst hij
        omega
      · rcases bool_eq_or i j with hij | hij
        · subst hij
          omega
        · right; right; right; left
          subst hij
          refine ⟨j, ?_, ?_, ?_⟩ <;> dsimp only
          · rw [h1]
            simp
          · rw [update_other2]
            exact h2
          · rw [Function.update_same]
      · rcases bool_eq_or i j with hij | hij <;> subst hij <;> omega
      · rcases bool_eq_or i j with hij | hij <;> subst hij <;> omega
  | rxS i hpc =>
    have hold : s.holder = some i := (hmx i).mp (Or.inr (Or.inl hpc))
    refine ⟨?_, ?_⟩
    · intro j
      dsimp only
      by_cases hij : j = i
      · subst hij
        simp [Function.update_same, lockedPc, hold]
      · rw [Function.update_noteq hij]
        exact hmx j
    · rcases hsh with ⟨h1, h2, h3⟩ | ⟨j, h1, h2, h3⟩ | ⟨j, h1, h2, h3⟩ |
        ⟨j, h1, h2, h3⟩ | ⟨j, h1, h2, h3⟩
      · cases i <;> omega
      · rcases bool_eq_or i j with hij | hij
        · right; right; left
          subst hij
          refine ⟨i, ?_, ?_, ?_⟩ <;> dsimp only
          · rw [h1]
            simp
          · simp [Function.update_same]
          · rw [update_other]
            exact h3
        · subst hij
          omega
      · rcases bool_eq_or i j with hij | hij <;> subst hij <;> omega
      · rcases bool_eq_or i j with hij | hij
        · subst hij
          omega
        · right; right; right; right
          subst hij
          refine ⟨j, ?_, ?_, ?_⟩ <;> dsimp only
          · rw [h1]
            simp
          · rw [update_other2]
            exact h2
          · simp [Function.update_same]
      · rcases bool_eq_or i j with hij | hij <;> subst hij <;> omega
  | rel i hpc =>
    have hold : s.holder = some i := (hmx i).mp (Or.inr (Or.inr hpc))
    have hnl : ∀ j, j ≠ i → ¬ lockedPc (s.pc j) := by
      intro j hij hj
      have hj2 := (hmx j).mp hj
      rw [hold] at hj2
      exact hij (Option.some_inj.mp hj2).symm
    refine ⟨?_, ?_⟩
    · intro j
      dsimp only
      by_cases hij : j = i
      · subst hij
        simp [Function.update_same, lockedPc]
      · rw [Function.update_noteq hij]
        have hl := hnl j hij
        simp [hl]
    · rcases hsh with ⟨h1, h2, h3⟩ | ⟨j, h1, h2, h3⟩ | ⟨j, h1, h2, h3⟩ |
        ⟨j, h1, h2, h3⟩ | ⟨j, h1, h2, h3⟩
      · cases i <;> omega
      · rcases bool_eq_or i j with hij | hij <;> subst hij <;> omega
      · rcases bool_eq_or i j with hij | hij
        · right; right; left
          subst hij
          refine ⟨i, h1, ?_, ?_⟩ <;> dsimp only
          · simp [Function.update_same]
          · rw [update_other]
            exact h3
        · subst hij
          omega
      · rcases bool_eq_or i j with hij | hij
        · right; right; right; left
          subst hij
          refine ⟨i, h1, ?_, ?_⟩ <;> dsimp only
          · simp [Function.update_same]
          · rw [update_other]
            exact h3
        · subst hij
          omega
      · right; right; right; right
        rcases bool_eq_or i j with hij | hij <;> subst hij
        · refine ⟨i, h1, ?_, ?_⟩ <;> dsimp only
          · simp [Function.update_same]
          · rw [update_other]
            exact h3
        · refine ⟨j, h1, ?_, ?_⟩ <;> dsimp only
          · rw [update_other2]
            exact h2
          · simp [Function.update_same]

theorem LInv_reach {s : LState}
    (h : Relation.ReflTransGen LStep LState.start s) : LInv s := by
  induction h with
  | refl => exact LInv_start
  | tail _ hbc ih => exact LInv_step ih hbc

theorem noInterleave_of_traceShape {s : LState} (h : traceShape s) :
    noInterleave s.tr := by
  intro i p q r hpq hqr hp hr hq
  rcases h with ⟨h1, _, _⟩ | ⟨j, h1, _, _⟩ | ⟨j, h1, _, _⟩ |
    ⟨j, h1, _, _⟩ | ⟨j, h1, _, _⟩ <;> rw [h1] at hp hr hq
  · simp at hp
  · -- a single transmit: no receive anywhere
    have hrb : r < 1 := by
      by_contra hcon
      rw [List.get?_eq_none.mpr (by simpa using Nat.le_of_not_lt hcon)] at hr
      exact Option.noConfusion hr
    omega
  · have hrb : r < 2 := by
      by_contra hcon
      rw [List.get?_eq_none.mpr (by simpa using Nat.le_of_not_lt hcon)] at hr
      exact Option.noConfusion hr
    omega
  · have hrb : r < 3 := by
      by_contra hcon
      rw [List.get?_eq_none.mpr (by simpa using Nat.le_of_not_lt hcon)] at hr
      exact Option.noConfusion hr
    have hqb : q < 3 := by omega
    have hpb : p < 3 := by omega
    rcases hq with hq | hq <;>
      interval_cases p <;> interval_cases q <;> interval_cases r <;> simp_all
  · have hrb : r < 4 := by
      by_contra hcon
      rw [List.get?_eq_none.mpr (by simpa using Nat.le_of_not_lt hcon)] at hr
      exact Option.noConfusion hr
    have hqb : q < 4 := by omega
    have hpb : p < 4 := by omega
    rcases hq with hq | hq <;>
      interval_cases p <;> interval_cases q <;> interval_cases r <;> simp_all

/-! The claims. -/

/-- C5: for every message, expected response head and channel state, `send`
and `sendread` called before `initialize` has established the session fail
with the assertion (precondition) fault, transmit nothing, and leave the
master's state unchanged. -/
theorem C5_requires_established (s : MasterState) (message pre : String)
    (h : s.initialized = false) :
    Master.send s message = ⟨.error .assertionError, s, []⟩ ∧
    Master.sendread s message pre = ⟨.error .assertionError, s, []⟩ := by
  constructor <;> simp [Master.send, Master.sendread, h]

/-- Witness for C5: a fresh master refuses both `send` and `sendread`. -/
theorem C5_witness :
    Master.send Master.new "R,RESET\n" =
      ⟨.error .assertionError, Master.new, []⟩ ∧
    Master.sendread Master.new "M,1\n" "m" =
      ⟨.error .assertionError, Master.new, []⟩ :=
  C5_requires_established Master.new "R,RESET\n" "m" rfl

/-- C2: with the session established and both peripherals registered,
`enable`, `disable` and `status` each return exactly one outcome per
registered peripheral — a list of length two, in registration order (bill
validator first, coin acceptor second), each entry the corresponding
peripheral's own success value or captured failure — and the fan-out call
itself returns normally: in particular when one peripheral fails and the
other succeeds the outcomes are exactly the captured error beside the
success value. -/
theorem C2_fanout_isolated (s : MasterState) (bv ca : Periph)
    (hi : s.initialized = true)
    (hbv : s.bill_validator = some bv) (hca : s.coin_acceptor = some ca) :
    ((Master.enable s).res = .ok [bv.enable, ca.enable] ∧
     (Master.disable s).res = .ok [bv.disable, ca.disable] ∧
     (Master.status s).res = .ok [bv.status, ca.status]) ∧
    ((∀ l, (Master.enable s).res = .ok l → l.length = 2) ∧
     (∀ l, (Master.disable s).res = .ok l → l.length = 2) ∧
     (∀ l, (Master.status s).res = .ok l → l.length = 2)) ∧
    (∀ e v, bv.enable = .error e → ca.enable = .ok v →
      (Master.enable s).res = .ok [.error e, .ok v]) ∧
    (∀ e v, bv.enable = .ok v → ca.enable = .error e →
      (Master.enable s).res = .ok [.ok v, .error e]) := by
  have he : (Master.enable s).res = .ok [bv.enable, ca.enable] := by
    simp [Master.enable, hi, hbv, hca]
  have hd : (Master.disable s).res = .ok [bv.disable, ca.disable] := by
    simp [Master.disable, hi, hbv, hca]
  have hst : (Master.status s).res = .ok [bv.status, ca.status] := by
    simp [Master.status, hi, hbv, hca]
  refine ⟨⟨he, hd, hst⟩, ⟨?_, ?_, ?_⟩, ?_, ?_⟩
  · intro l hl
    rw [he] at hl
    injection hl with h2
    rw [← h2]
    rfl
  · intro l hl
    rw [hd] at hl
    injection hl with h2
    rw [← h2]
    rfl
  · intro l hl
    rw [hst] at hl
    injection hl with h2
    rw [← h2]
    rfl
  · intro e v h1 h2
    rw [h1, h2] at he
    exact he
  · intro e v h1 h2
    rw [h1, h2] at he
    exact he

/-- Witness for C2: with a failing bill validator and a healthy coin
acceptor, `enable` returns the captured error beside the success value. -/
theorem C2_witness :
    (Master.enable mixedState).res =
      .ok [.error (.periphError "device down"), .ok "enabled"] :=
  (C2_fanout_isolated mixedState failPeriph okPeriph rfl rfl
    rfl).2.2.1 (.periphError "device down") "enabled" rfl rfl

/-- C7: with the session established and both peripherals registered, `run`
does not isolate failures: if the bill validator's run raises, the aggregate
`run` raises that failure; if only the coin acceptor's run raises, the
aggregate raises that failure; only when both succeed does `run` return
normally — no per-peripheral outcome list is produced. -/
theorem C7_run_propagates (s : MasterState) (bv ca : Periph)
    (hi : s.initialized = true)
    (hbv : s.bill_validator = some bv) (hca : s.coin_acceptor = some ca) :
    (∀ e, bv.run = .error e → (Master.run s).res = .error e) ∧
    (∀ e, bv.run = .ok () → ca.run = .error e →
      (Master.run s).res = .error e) ∧
    (bv.run = .ok () → ca.run = .ok () → (Master.run s).res = .ok ()) := by
  refine ⟨?_, ?_, ?_⟩
  · intro e he
    simp [Master.run, hi, hbv, hca, he]
  · intro e h1 h2
    simp [Master.run, hi, hbv, hca, h1, h2]
  · intro h1 h2
    simp [Master.run, hi, hbv, hca, h1, h2]

/-- Witness for C7: with a failing bill validator, `run` raises its error. -/
theorem C7_witness :
    (Master.run mixedState).res = .error (.periphError "device down") :=
  (C7_run_propagates mixedState failPeriph okPeriph rfl rfl
    rfl).1 (.periphError "device down") rfl

/-- Counterexample to C1 as stated: the claim quantifies over every channel
adapter, but a channel that acknowledges mastership with `m,ACK` and then
fails the `R,RESET` transmit makes `initialize` (with busReset) fail even
though the mastership response was exactly `m,ACK` — the claimed equivalence
is false for this adapter (and the session is left established despite the
failure). -/
theorem C1_cex :
    ackThenFailChan.sendread (to_ascii "M,1\n") "m" = .ok "m,ACK" ∧
    ¬ (((Master.initializeM Master.new ackThenFailChan okPeriph okPeriph
          true 1).res = .ok () ∧
        (Master.initializeM Master.new ackThenFailChan okPeriph okPeriph
          true 1).st.initialized = true) ↔
       ackThenFailChan.sendread (to_ascii "M,1\n") "m" = .ok "m,ACK") := by
  have hrun := initializeM_ack_reset_err Master.new ackThenFailChan okPeriph
    okPeriph 1 (.channelError "timeout") rfl rfl
  refine ⟨rfl, fun hiff => ?_⟩
  have h2 := hiff.mpr rfl
  rw [hrun] at h2
  simp at h2

/-- C1 amended: for a fresh master, provided the channel's fire-and-forget
transmit and both peripherals' initialize do not themselves fail,
`initialize` succeeds and leaves the session established if and only if the
channel's response to the mastership command is exactly `m,ACK`; and
whenever the mastership exchange yields any response other than `m,ACK`,
`initialize` fails with the MastershipError, the session is left not
established, no `R,RESET` is transmitted and no peripheral's initialize is
dispatched. -/
theorem C1_amended_thm (s : MasterState) (h : USBHandler) (bv ca : Periph)
    (br : Bool) (stc : ℚ) (h0 : s.initialized = false) :
    (h.send (to_ascii "R,RESET\n") = .ok () →
      bv.initializeP (!br) = .ok () → ca.initializeP (!br) = .ok () →
      (((Master.initializeM s h bv ca br stc).res = .ok () ∧
        (Master.initializeM s h bv ca br stc).st.initialized = true) ↔
       h.sendread (to_ascii "M,1\n") "m" = .ok "m,ACK")) ∧
    (∀ resp, h.sendread (to_ascii "M,1\n") "m" = .ok resp →
      resp ≠ "m,ACK" →
      (Master.initializeM s h bv ca br stc).res = .error MastershipError ∧
      (Master.initializeM s h bv ca br stc).st.initialized = false ∧
      Event.sendE (to_ascii "R,RESET\n") ∉
        (Master.initializeM s h bv ca br stc).tr ∧
      ∀ pid sk, Event.periphInitE pid sk ∉
        (Master.initializeM s h bv ca br stc).tr) := by
  constructor
  · intro hsend hbv hca
    cases hr : h.sendread (to_ascii "M,1\n") "m" with
    | error e =>
      rw [initializeM_err s h bv ca br stc e hr]
      simp [h0, hr]
    | ok resp =>
      by_cases hne : resp = "m,ACK"
      · subst hne
        cases br
        · rw [initializeM_ack_noreset s h bv ca stc hr]
          simp only [Bool.not_false] at hbv hca
          simp [gatherInit, hbv, hca, hr]
        · rw [initializeM_ack_reset_ok s h bv ca stc hr hsend]
          simp only [Bool.not_true] at hbv hca
          simp [gatherInit, hbv, hca, hr]
      · rw [initializeM_nak s h bv ca br stc resp hr hne]
        simp [h0, hr, hne]
  · intro resp hr hne
    rw [initializeM_nak s h bv ca br stc resp hr hne]
    exact ⟨rfl, h0, by simp, fun pid sk => by simp⟩

/-- Witness for C1 amended: a fresh master with an all-acknowledging channel
satisfies the equivalence, and with a refusing channel fails with the
MastershipError. -/
theorem C1_witness :
    (((Master.initializeM Master.new ackChan okPeriph okPeriph true
        1).res = .ok () ∧
      (Master.initializeM Master.new ackChan okPeriph okPeriph true
        1).st.initialized = true) ↔
     ackChan.sendread (to_ascii "M,1\n") "m" = .ok "m,ACK") ∧
    (Master.initializeM Master.new nakChan okPeriph okPeriph true
      1).res = .error MastershipError :=
  ⟨(C1_amended_thm Master.new ackChan okPeriph okPeriph true 1 rfl).1
      rfl rfl rfl,
   ((C1_amended_thm Master.new nakChan okPeriph okPeriph true 1 rfl).2
      "x,NAK" rfl (by decide)).1⟩

/-- Counterexample to C10 as stated: after a failed `initialize`
(mastership refused) on a fresh master, the established flag does NOT
distinguish the failed state from the pre-call state — it is false in both —
while the stored channel-adapter attribute does differ; so "only the
established flag distinguishes the failed state from the pre-call state" is
false on this run. -/
theorem C10_cex :
    (Master.initializeM Master.new nakChan okPeriph okPeriph true
      1).st.initialized = Master.new.initialized ∧
    (Master.initializeM Master.new nakChan okPeriph okPeriph true
      1).st.usb_handler ≠ Master.new.usb_handler := by
  rw [initializeM_nak Master.new nakChan okPeriph okPeriph true 1 "x,NAK"
    rfl (by decide)]
  exact ⟨rfl, fun hcon => Option.noConfusion hcon⟩

/-- C10 amended: `initialize` stores the channel adapter and both peripheral
references before the handshake outcome is known, so after a failed
`initialize` (MastershipError) those attributes are already set while the
established flag remains false, exactly as before the call; the stored
references, not the established flag, distinguish the failed state from the
pre-call state. -/
theorem C10_amended_thm (s : MasterState) (h : USBHandler) (bv ca : Periph)
    (br : Bool) (stc : ℚ) (resp : String) (h0 : s.initialized = false)
    (hr : h.sendread (to_ascii "M,1\n") "m" = .ok resp)
    (hne : resp ≠ "m,ACK") :
    (Master.initializeM s h bv ca br stc).res = .error MastershipError ∧
    (Master.initializeM s h bv ca br stc).st.usb_handler = some h ∧
    (Master.initializeM s h bv ca br stc).st.bill_validator = some bv ∧
    (Master.initializeM s h bv ca br stc).st.coin_acceptor = some ca ∧
    (Master.initializeM s h bv ca br stc).st.initialized = false ∧
    (Master.initializeM s h bv ca br stc).st.initialized = s.initialized := by
  rw [initializeM_nak s h bv ca br stc resp hr hne]
  exact ⟨rfl, rfl, rfl, rfl, h0, rfl⟩

/-- Witness for C10 amended: the refused fresh master holds the channel
adapter it was given. -/
theorem C10_witness :
    (Master.initializeM Master.new nakChan okPeriph okPeriph true
      1).st.usb_handler = some nakChan :=
  (C10_amended_thm Master.new nakChan okPeriph okPeriph true 1 "x,NAK" rfl
    rfl (by decide)).2.1

/-- Counterexample to C4 as stated: the master never transmits the bare text
`M,1` nor the bare text `R,RESET`; the texts actually handed to the channel
adapter are `M,1\n` and `R,RESET\n`, each carrying a trailing newline
terminator, as a successful bus-reset run exhibits. -/
theorem C4_cex :
    Event.sendreadE "M,1" "m" ∉
      (Master.initializeM Master.new ackChan okPeriph okPeriph true 1).tr ∧
    Event.sendE "R,RESET" ∉
      (Master.initializeM Master.new ackChan okPeriph okPeriph true 1).tr ∧
    Event.sendreadE "M,1\n" "m" ∈
      (Master.initializeM Master.new ackChan okPeriph okPeriph true 1).tr ∧
    Event.sendE "R,RESET\n" ∈
      (Master.initializeM Master.new ackChan okPeriph okPeriph true 1).tr := by
  rw [initializeM_ack_reset_ok Master.new ackChan okPeriph okPeriph 1 rfl
    rfl]
  refine ⟨by decide, by decide, by simp [to_ascii], by simp [to_ascii]⟩

/-- C4 amended: the wire-level handshake is bit-exact up to the newline
terminator: the mastership exchange transmits exactly the text `M,1\n` with
expected response head `m` (and it is the first channel action of every
`initialize` run), every exchange-with-response transmits exactly that text,
every fire-and-forget transmit carries exactly the text `R,RESET\n` (so the
reset awaits no response), and any mastership response other than exactly
`m,ACK` is fatal with the MastershipError. -/
theorem C4_amended_thm (s : MasterState) (h : USBHandler) (bv ca : Periph)
    (br : Bool) (stc : ℚ) :
    (Master.initializeM s h bv ca br stc).tr.get? 0 =
      some (.sendreadE (to_ascii "M,1\n") "m") ∧
    (∀ m pre2, Event.sendreadE m pre2 ∈
        (Master.initializeM s h bv ca br stc).tr →
      m = to_ascii "M,1\n" ∧ pre2 = "m") ∧
    (∀ m, Event.sendE m ∈ (Master.initializeM s h bv ca br stc).tr →
      m = to_ascii "R,RESET\n") ∧
    (∀ resp, h.sendread (to_ascii "M,1\n") "m" = .ok resp →
      resp ≠ "m,ACK" →
      (Master.initializeM s h bv ca br stc).res =
        .error MastershipError) := by
  cases hr : h.sendread (to_ascii "M,1\n") "m" with
  | error e =>
    rw [initializeM_err s h bv ca br stc e hr]
    refine ⟨rfl, ?_, ?_, ?_⟩
    · intro m pre2 hm
      simp at hm
      exact hm
    · intro m hm
      simp at hm
    · intro resp hr2 hne
      exact Except.noConfusion hr2
  | ok resp0 =>
    by_cases hne0 : resp0 = "m,ACK"
    · subst hne0
      have hfatal : ∀ resp, (Except.ok "m,ACK" : Except PyErr String) =
          Except.ok resp →
          resp ≠ "m,ACK" →
          (Master.initializeM s h bv ca br stc).res =
            .error MastershipError := by
        intro resp hr2 hne
        injection hr2 with h2
        exact absurd h2.symm hne
      cases br
      · rw [initializeM_ack_noreset s h bv ca stc hr]
        rw [initializeM_ack_noreset s h bv ca stc hr] at hfatal
        refine ⟨rfl, ?_, ?_, hfatal⟩
        · intro m pre2 hm
          simp at hm
          exact hm
        · intro m hm
          simp at hm
      · cases hsend : h.send (to_ascii "R,RESET\n") with
        | ok u =>
          cases u
          rw [initializeM_ack_reset_ok s h bv ca stc hr hsend]
          rw [initializeM_ack_reset_ok s h bv ca stc hr hsend] at hfatal
          refine ⟨rfl, ?_, ?_, hfatal⟩
          · intro m pre2 hm
            simp at hm
            exact hm
          · intro m hm
            simp at hm
            exact hm
        | error e =>
          rw [initializeM_ack_reset_err s h bv ca stc e hr hsend]
          rw [initializeM_ack_reset_err s h bv ca stc e hr hsend] at hfatal
          refine ⟨rfl, ?_, ?_, hfatal⟩
          · intro m pre2 hm
            simp at hm
            exact hm
          · intro m hm
            simp at hm
            exact hm
    · rw [initializeM_nak s h bv ca br stc resp0 hr hne0]
      refine ⟨rfl, ?_, ?_, fun resp hr2 hne => rfl⟩
      · intro m pre2 hm
        simp at hm
        exact hm
      · intro m hm
        simp at hm

/-- Witness for C4 amended: against the refusing channel, the mastership
response `x,NAK` is fatal with the MastershipError. -/
theorem C4_witness :
    (Master.initializeM Master.new nakChan okPeriph okPeriph false
      1).res = .error MastershipError :=
  (C4_amended_thm Master.new nakChan okPeriph okPeriph false 1).2.2.2
    "x,NAK" rfl (by decide)

/-- C3: whenever `initialize` with busReset runs past a successful mastership
handshake, the session is established, the `R,RESET` command is handed to the
channel, and between any `R,RESET` transmit and any peripheral-initialize
dispatch in the run's event order there is the `asyncio.sleep` of exactly
`SETUP_TIME_SECONDS + 0.1` seconds — so no peripheral's initialize is
dispatched until that settle suspension has elapsed after the reset
transmission. -/
theorem C3_reset_settle (s : MasterState) (h : USBHandler) (bv ca : Periph)
    (stc : ℚ)
    (hACK : h.sendread (to_ascii "M,1\n") "m" = .ok "m,ACK") :
    (Master.initializeM s h bv ca true stc).st.initialized = true ∧
    Event.sendE (to_ascii "R,RESET\n") ∈
      (Master.initializeM s h bv ca true stc).tr ∧
    (∀ p q pid sk,
      (Master.initializeM s h bv ca true stc).tr.get? p =
        some (.sendE (to_ascii "R,RESET\n")) →
      (Master.initializeM s h bv ca true stc).tr.get? q =
        some (.periphInitE pid sk) →
      ∃ k, p < k ∧ k < q ∧
        (Master.initializeM s h bv ca true stc).tr.get? k =
          some (.sleepE (stc + 1 / 10))) := by
  cases hsend : h.send (to_ascii "R,RESET\n") with
  | ok u =>
    cases u
    rw [initializeM_ack_reset_ok s h bv ca stc hACK hsend]
    refine ⟨rfl, by simp, ?_⟩
    intro p q pid sk hp hq
    have hpb : p < 5 := by
      by_contra hcon
      rw [List.get?_eq_none.mpr (by simpa using Nat.le_of_not_lt hcon)] at hp
      exact Option.noConfusion hp
    have hqb : q < 5 := by
      by_contra hcon
      rw [List.get?_eq_none.mpr (by simpa using Nat.le_of_not_lt hcon)] at hq
      exact Option.noConfusion hq
    interval_cases p <;> interval_cases q <;>
      first
      | exact ⟨2, by omega, by omega, rfl⟩
      | simp_all
  | error e =>
    rw [initializeM_ack_reset_err s h bv ca stc e hACK hsend]
    refine ⟨rfl, by simp, ?_⟩
    intro p q pid sk hp hq
    have hqb : q < 2 := by
      by_contra hcon
      rw [List.get?_eq_none.mpr (by simpa using Nat.le_of_not_lt hcon)] at hq
      exact Option.noConfusion hq
    interval_cases q <;> simp_all

/-- Witness for C3: the all-acknowledging channel transmits `R,RESET`. -/
theorem C3_witness :
    Event.sendE (to_ascii "R,RESET\n") ∈
      (Master.initializeM Master.new ackChan okPeriph okPeriph true 1).tr :=
  (C3_reset_settle Master.new ackChan okPeriph okPeriph 1 rfl).2.1

/-- C6: when `initialize` is called with busReset = false, no fire-and-forget
transmit (in particular no `R,RESET`) and no sleep occurs at all, every
peripheral-initialize dispatch carries `skipOwnSetupDelay = true`, and after
a successful handshake both registered peripherals are dispatched with that
flag. -/
theorem C6_noreset_skip (s : MasterState) (h : USBHandler) (bv ca : Periph)
    (stc : ℚ) :
    (∀ m, Event.sendE m ∉ (Master.initializeM s h bv ca false stc).tr) ∧
    (∀ q, Event.sleepE q ∉ (Master.initializeM s h bv ca false stc).tr) ∧
    (∀ pid sk, Event.periphInitE pid sk ∈
        (Master.initializeM s h bv ca false stc).tr → sk = true) ∧
    (h.sendread (to_ascii "M,1\n") "m" = .ok "m,ACK" →
      Event.periphInitE .billValidator true ∈
        (Master.initializeM s h bv ca false stc).tr ∧
      Event.periphInitE .coinAcceptor true ∈
        (Master.initializeM s h bv ca false stc).tr) := by
  cases hr : h.sendread (to_ascii "M,1\n") "m" with
  | error e =>
    rw [initializeM_err s h bv ca false stc e hr]
    refine ⟨by simp, by simp, by simp, ?_⟩
    intro hACK
    exact Except.noConfusion hACK
  | ok resp =>
    by_cases hne : resp = "m,ACK"
    · subst hne
      rw [initializeM_ack_noreset s h bv ca stc hr]
      refine ⟨by simp, by simp, ?_, fun _ => ⟨by simp, by simp⟩⟩
      intro pid sk hm
      simp at hm
      rcases hm with ⟨h1, h2⟩ | ⟨h1, h2⟩ <;> exact h2
    · rw [initializeM_nak s h bv ca false stc resp hr hne]
      refine ⟨by simp, by simp, by simp, ?_⟩
      intro hACK
      injection hACK with h2
      exact absurd h2 hne

/-- Witness for C6: with busReset = false both peripherals are dispatched
with `skipOwnSetupDelay = true`. -/
theorem C6_witness :
    Event.periphInitE PeriphId.billValidator true ∈
      (Master.initializeM Master.new ackChan okPeriph okPeriph false
        1).tr :=
  ((C6_noreset_skip Master.new ackChan okPeriph okPeriph 1).2.2.2 rfl).1

/-- C8: the session-established flag is set to true exactly by a successful
handshake inside `initialize` — afterwards it reads true exactly when it was
already true or the mastership response was `m,ACK` — and no other operation
modifies the master's state at all; consequently along any sequence of
operations, once a state is established every subsequent state is
established. -/
theorem C8_established_once :
    (∀ s m, (Master.send s m).st = s) ∧
    (∀ s m p, (Master.sendread s m p).st = s) ∧
    (∀ s, (Master.enable s).st = s) ∧
    (∀ s, (Master.disable s).st = s) ∧
    (∀ s, (Master.status s).st = s) ∧
    (∀ s, (Master.run s).st = s) ∧
    (∀ s h bv ca br stc,
      ((Master.initializeM s h bv ca br stc).st.initialized = true ↔
        (s.initialized = true ∨
         h.sendread (to_ascii "M,1\n") "m" = .ok "m,ACK"))) ∧
    (∀ s s2, Relation.ReflTransGen MStep s s2 →
      s.initialized = true → s2.initialized = true) := by
  refine ⟨send_st, sendread_st, enable_st, disable_st, status_st, run_st,
    initializeM_st_initialized, ?_⟩
  intro s s2 hreach
  induction hreach with
  | refl => exact fun hh => hh
  | tail hab hbc ih =>
    intro h1
    have h2 := ih h1
    cases hbc with
    | initializeS ch bv ca br stc =>
      exact (initializeM_st_initialized _ ch bv ca br stc).mpr (Or.inl h2)
    | sendS m =>
      rw [send_st]
      exact h2
    | sendreadS m p =>
      rw [sendread_st]
      exact h2
    | enableS =>
      rw [enable_st]
      exact h2
    | disableS =>
      rw [disable_st]
      exact h2
    | statusS =>
      rw [status_st]
      exact h2
    | runS =>
      rw [run_st]
      exact h2

/-- Witness for C8: one `run` step from an established state stays
established. -/
theorem C8_witness : (Master.run mixedState).st.initialized = true :=
  C8_established_once.2.2.2.2.2.2.2 mixedState (Master.run mixedState).st
    (Relation.ReflTransGen.single (MStep.runS mixedState)) rfl

/-- C9: in the interleaving semantics of two concurrently issued lock-guarded
`sendread` exchanges, every schedule reachable from the initial state yields
a wire trace in which no wire action of one task falls between the other
task's transmit and its matching receive: the lock serializes the exchanges,
so the second call's transmit cannot begin until the first call's full
request/response cycle has completed and their bytes never interleave. -/
theorem C9_serialized {s : LState}
    (h : Relation.ReflTransGen LStep LState.start s) : noInterleave s.tr :=
  noInterleave_of_traceShape (LInv_reach h).2

/-- Witness for C9: a complete two-exchange schedule produces the serialized
trace, which is interleaving-free. -/
theorem C9_witness :
    noInterleave [WEv.tx false, WEv.rx false, WEv.tx true, WEv.rx true] := by
  have h0 : Relation.ReflTransGen LStep LState.start LState.start :=
    Relation.ReflTransGen.refl
  have h1 := h0.tail (LStep.acq LState.start false rfl rfl)
  have h2 := h1.tail (LStep.txS _ false rfl)
  have h3 := h2.tail (LStep.rxS _ false rfl)
  have h4 := h3.tail (LStep.rel _ false rfl)
  have h5 := h4.tail (LStep.acq _ true rfl rfl)
  have h6 := h5.tail (LStep.txS _ true rfl)
  have h7 := h6.tail (LStep.rxS _ true rfl)
  exact C9_serialized h7

end MDB
